import Mathlib

/-!
Verification of the cli-agent-orchestrator core against its specification.

The development shallowly embeds the two source modules the claims are
about:

* `providers/kiro_cli.py` — the status classifier (`get_status`) and the
  message extractor (`extract_last_message_from_script`) of
  `KiroCliProvider`, together with the module-level regular-expression
  constants they use.  Text is modelled as `List Char`; each regular
  expression of the source is embedded as a specialised matcher whose
  semantics coincide with the Python `re` behaviour of that concrete
  pattern (every pattern used by the source is deterministic under greedy
  maximal munch, which is spelled out at each matcher).  Character classes
  are modelled over the ASCII range the captures use.

* `clients/tmux.py` — `send_keys` (staging-buffer injection) and the
  soft-failure operations (`list_sessions`, `get_session_windows`,
  `kill_session`, `session_exists`, `get_pane_working_directory`).  The
  external tmux/libtmux world is an explicit oracle argument: each
  `subprocess.run` result and each libtmux lookup is a parameter, and the
  Python try/except/finally structure is embedded as the corresponding
  case analysis on the oracle.
-/

/-! ## Character classes (ASCII range of the Python classes used) -/

/-- Python `\s` on the ASCII range: space, tab, newline, carriage return,
vertical tab, form feed. -/
def isWsChar (c : Char) : Bool :=
  c = ' ' || c = '\t' || c = '\n' || c = '\r' || c = '\x0b' || c = '\x0c'

/-- Python `\d` on the ASCII range. -/
def isDigitChar (c : Char) : Bool :=
  '0' ≤ c && c ≤ '9'

/-- The regex class `[a-zA-Z]`. -/
def isAlphaChar (c : Char) : Bool :=
  ('a' ≤ c && c ≤ 'z') || ('A' ≤ c && c ≤ 'Z')

/-- The class of `CONTROL_CHAR_PATTERN = r"[\x00-\x1f\x7f-\x9f]"`. -/
def isCtrlChar (c : Char) : Bool :=
  c.toNat ≤ 0x1f || (0x7f ≤ c.toNat && c.toNat ≤ 0x9f)

/-- ASCII lowering, as `str.lower()` acts on the ASCII letters. -/
def lowerChar (c : Char) : Char :=
  if 'A' ≤ c && c ≤ 'Z' then Char.ofNat (c.toNat + 32) else c

/-- ASCII `str.lower()`. -/
def toLowerAscii (l : List Char) : List Char := l.map lowerChar

/-- Python `str.strip()` on the ASCII range: drop whitespace from both ends. -/
def trimWs (l : List Char) : List Char :=
  ((l.dropWhile isWsChar).reverse.dropWhile isWsChar).reverse

/-! ## Single-pass substitution of `ANSI_CODE_PATTERN`

`ANSI_CODE_PATTERN = r"\x1b\[[0-9;]*m"`.  `re.sub(pat, "", s)` scans left
to right, removing each leftmost non-overlapping match and resuming after
it.  The pattern is deterministic: `[0-9;]*` is maximal (a shorter run
would leave a digit or `;` where `m` is required). -/

/-- Length of the maximal `[0-9;]*` run at the head of the list. -/
def csiParamRun (l : List Char) : Nat :=
  (l.takeWhile (fun c => isDigitChar c || c = ';')).length

/-- Length of a match of `ANSI_CODE_PATTERN` at the head of the list,
if any. -/
def ansiLenAt (l : List Char) : Option Nat :=
  match l with
  | '\x1b' :: '[' :: rest =>
      let r := csiParamRun rest
      match rest.drop r with
      | 'm' :: _ => some (3 + r)
      | _ => none
  | _ => none

/-- One fuelled pass of `re.sub(ANSI_CODE_PATTERN, "", ·)`.  Each step
consumes at least one character, so fuel = length suffices. -/
def stripAnsiAux : Nat → List Char → List Char
  | 0, _ => []
  | _ + 1, [] => []
  | fuel + 1, c :: rest =>
      match ansiLenAt (c :: rest) with
      | some n => stripAnsiAux fuel ((c :: rest).drop n)
      | none => c :: stripAnsiAux fuel rest

/-- `re.sub(ANSI_CODE_PATTERN, "", s)`. -/
def stripAnsi (l : List Char) : List Char := stripAnsiAux l.length l

/-! ## Substitution of `ESCAPE_SEQUENCE_PATTERN = r"\[[?0-9;]*[a-zA-Z]"`
(deterministic for the same maximal-munch reason) and of
`CONTROL_CHAR_PATTERN` (a one-character class, so `re.sub` is a filter). -/

/-- Length of the maximal `[?0-9;]*` run at the head of the list. -/
def escParamRun (l : List Char) : Nat :=
  (l.takeWhile (fun c => isDigitChar c || c = ';' || c = '?')).length

/-- Length of a match of `ESCAPE_SEQUENCE_PATTERN` at the head of the
list, if any. -/
def escLenAt (l : List Char) : Option Nat :=
  match l with
  | '[' :: rest =>
      let r := escParamRun rest
      match rest.drop r with
      | c :: _ => if isAlphaChar c then some (2 + r) else none
      | [] => none
  | _ => none

/-- One fuelled pass of `re.sub(ESCAPE_SEQUENCE_PATTERN, "", ·)`. -/
def stripEscSeqAux : Nat → List Char → List Char
  | 0, _ => []
  | _ + 1, [] => []
  | fuel + 1, c :: rest =>
      match escLenAt (c :: rest) with
      | some n => stripEscSeqAux fuel ((c :: rest).drop n)
      | none => c :: stripEscSeqAux fuel rest

/-- `re.sub(ESCAPE_SEQUENCE_PATTERN, "", s)`. -/
def stripEscSeq (l : List Char) : List Char := stripEscSeqAux l.length l

/-- `re.sub(CONTROL_CHAR_PATTERN, "", s)` removes exactly the characters
of the class. -/
def stripCtrl (l : List Char) : List Char := l.filter (fun c => !isCtrlChar c)

/-! ## Position-indexed primitives for the scanning matchers -/

/-- The character at position `p`, if `p` is in range. -/
def charAt (s : List Char) (p : Nat) : Option Char := (s.drop p).head?

/-- Length of the maximal whitespace run starting at position `p`
(the greedy `\s*`). -/
def wsRunFrom (s : List Char) (p : Nat) : Nat :=
  ((s.drop p).takeWhile isWsChar).length

/-- Length of the maximal digit run starting at position `p`
(the greedy `\d+`, when positive). -/
def digitRunFrom (s : List Char) (p : Nat) : Nat :=
  ((s.drop p).takeWhile isDigitChar).length

/-! ## The idle-prompt pattern

`self._idle_prompt_pattern =
  rf"\[{re.escape(profile)}\]\s*(?:\d+%\s*)?(?:λ\s*)?!?>\s*"`.

`re.escape` makes the profile literal.  The pattern is deterministic
under greedy maximal munch: each `\s*` run is followed by a required
character that is not whitespace, `\d+%` either matches with the maximal
digit run or not at all, and skipping a matched optional group leaves a
character (`digit`, `λ`, `!`) that the continuation cannot accept, so
Python backtracking never changes the greedy result. -/

/-- The literal `[profile]` prefix of the idle-prompt pattern. -/
def idleLit (profile : List Char) : List Char := '[' :: (profile ++ [']'])

/-- Length of the idle-prompt-pattern match starting at position `p`,
if any. -/
def idleLenAt (profile s : List Char) (p : Nat) : Option Nat :=
  if (idleLit profile).isPrefixOf (s.drop p) then
    let q0 := p + (idleLit profile).length
    let q1 := q0 + wsRunFrom s q0
    let d := digitRunFrom s q1
    let q2 := if 0 < d ∧ charAt s (q1 + d) = some '%'
              then (q1 + d + 1) + wsRunFrom s (q1 + d + 1) else q1
    let q3 := if charAt s q2 = some 'λ' then (q2 + 1) + wsRunFrom s (q2 + 1) else q2
    let q4 := if charAt s q3 = some '!' then q3 + 1 else q3
    if charAt s q4 = some '>' then some (q4 + 1 + wsRunFrom s (q4 + 1) - p) else none
  else none

/-! ## The response-start marker

`GREEN_ARROW_PATTERN = r"^>\s*"`, used with `re.MULTILINE`: `^` matches
at position 0 and right after each `'\n'`; `\s*` is maximal (nothing
follows it in the pattern). -/

/-- Length of the `^>\s*` match starting at position `p` (multi-line
semantics), if any. -/
def greenLenAt (s : List Char) (p : Nat) : Option Nat :=
  if (p = 0 ∨ charAt s (p - 1) = some '\n') ∧ charAt s p = some '>' then
    some (1 + wsRunFrom s (p + 1))
  else none

/-! ## `re.finditer`: leftmost non-overlapping matches

The scan tries every start position in order; on a match of length `n`
it records `(p, p + n)` and resumes at `p + n` (all embedded patterns
match at least one character).  Fuel `len + 2` covers the worst case of
advancing one position at a time from `0` past `len`. -/

def findIterAux (f : Nat → Option Nat) (stop : Nat) : Nat → Nat → List (Nat × Nat)
  | 0, _ => []
  | fuel + 1, p =>
      if stop < p then []
      else
        match f p with
        | some n => (p, p + n) :: findIterAux f stop fuel (p + max n 1)
        | none => findIterAux f stop fuel (p + 1)

/-- `re.finditer` of a pattern whose match length at position `p` is
`f p`, over a text of length `len`: the list of `(start, end)` spans. -/
def findIter (f : Nat → Option Nat) (len : Nat) : List (Nat × Nat) :=
  findIterAux f len (len + 2) 0

/-- `re.finditer(idle_prompt_pattern, s)` spans. -/
def idleFindIter (profile s : List Char) : List (Nat × Nat) :=
  findIter (idleLenAt profile s) s.length

/-- `re.finditer(GREEN_ARROW_PATTERN, s, re.MULTILINE)` spans. -/
def greenFindIter (s : List Char) : List (Nat × Nat) :=
  findIter (greenLenAt s) s.length

/-! ## Error indicators and case-insensitive substring membership -/

/-- The single entry of `ERROR_INDICATORS`. -/
def errorIndicator : List Char :=
  "Kiro is having trouble responding right now".data

/-- Python `needle in hay`: contiguous-substring membership. -/
def containsSub (needle : List Char) : List Char → Bool
  | [] => needle.isEmpty
  | c :: rest => needle.isPrefixOf (c :: rest) || containsSub needle rest

/-- `any(ind.lower() in clean.lower() for ind in ERROR_INDICATORS)`. -/
def hasErrorPhrase (clean : List Char) : Bool :=
  containsSub (toLowerAscii errorIndicator) (toLowerAscii clean)

/-! ## The permission-prompt pattern

`self._permission_prompt_pattern =
  r"Allow this action\?.*\[.*y.*\/.*n.*\/.*t.*\]:\s*" + idle_prompt_pattern`,
searched with `re.MULTILINE | re.DOTALL`.

Under `DOTALL` every `.*` matches an arbitrary block of characters, and
Python backtracking is complete, so `re.search` succeeds on `clean` iff
there is a decomposition: an occurrence of the literal
`"Allow this action?"`, then (anywhere at or after its end) a `'['`, then
`'y'`, `'/'`, `'n'`, `'/'`, `'t'` in order as a (not necessarily
contiguous) subsequence, then (anywhere after) the literal `"]:"`
followed by a whitespace run and an idle-prompt match immediately after
that run (the idle pattern begins with the non-whitespace `'['`, so the
backtrackable `\s*` can only stop at the end of the maximal run).
Existence from a suffix is monotone in the suffix, so taking the first
occurrence at every step except the final `"]:"` scan — which must try
every occurrence — decides exactly `re.search`. -/

/-- The suffix right after the first occurrence of the literal `needle`,
if `needle` occurs. -/
def findSubSuffix (needle : List Char) : List Char → Option (List Char)
  | [] => if needle.isEmpty then some [] else none
  | c :: rest =>
      if needle.isPrefixOf (c :: rest) then some ((c :: rest).drop needle.length)
      else findSubSuffix needle rest

/-- The suffix right after the first occurrence of the character `ch`,
if `ch` occurs. -/
def findCharSuffix (ch : Char) : List Char → Option (List Char)
  | [] => none
  | c :: rest => if c = ch then some rest else findCharSuffix ch rest

/-- Scan for an occurrence of `"]:"` followed (after the maximal
whitespace run) by an idle-prompt match. -/
def permTailScan (profile : List Char) : List Char → Bool
  | [] => false
  | c :: rest =>
      (match c, rest with
       | ']', ':' :: r2 =>
           (idleLenAt profile (r2.drop (wsRunFrom r2 0)) 0).isSome
       | _, _ => false)
      || permTailScan profile rest

/-- `re.search(permission_prompt_pattern, clean, re.MULTILINE | re.DOTALL)`
as a Boolean. -/
def permSearch (profile clean : List Char) : Bool :=
  match findSubSuffix "Allow this action?".data clean with
  | none => false
  | some s1 =>
    match findCharSuffix '[' s1 with
    | none => false
    | some s2 =>
      match findCharSuffix 'y' s2 with
      | none => false
      | some s3 =>
        match findCharSuffix '/' s3 with
        | none => false
        | some s4 =>
          match findCharSuffix 'n' s4 with
          | none => false
          | some s5 =>
            match findCharSuffix '/' s5 with
            | none => false
            | some s6 =>
              match findCharSuffix 't' s6 with
              | none => false
              | some s7 => permTailScan profile s7

/-! ## The status classifier — `KiroCliProvider.get_status`

The capture `output` is the text `tmux_client.get_history` returned; the
classifier is a pure function of it and of the provider patterns. -/

inductive TerminalStatus
  | IDLE
  | PROCESSING
  | COMPLETED
  | WAITING_USER_ANSWER
  | ERROR
deriving DecidableEq

/-- `KiroCliProvider.get_status`, as a pure function of the captured
output (the body of the method after the `get_history` call). -/
def get_status (profile output : List Char) : TerminalStatus :=
  if output.isEmpty then TerminalStatus.ERROR
  else
    let clean := stripAnsi output
    if (idleFindIter profile clean).isEmpty then TerminalStatus.PROCESSING
    else if hasErrorPhrase clean then TerminalStatus.ERROR
    else if permSearch profile clean then TerminalStatus.WAITING_USER_ANSWER
    else
      match (greenFindIter clean).getLast? with
      | none => TerminalStatus.IDLE
      | some m =>
          if (idleFindIter profile clean).any (fun q => m.2 < q.1) then
            TerminalStatus.COMPLETED
          else TerminalStatus.PROCESSING

/-! ## The message extractor — `KiroCliProvider.extract_last_message_from_script` -/

/-- The three `ValueError` kinds the extractor raises, named as in the
specification taxonomy. -/
inductive ExtractErr
  | NoResponseFound
  | IncompleteResponse
  | EmptyResponse
deriving DecidableEq

inductive ExtractResult
  | err (e : ExtractErr)
  | ok (msg : List Char)
deriving DecidableEq

/-- `green_arrows[-1]`. -/
def lastGreen (clean : List Char) : Option (Nat × Nat) :=
  (greenFindIter clean).getLast?

/-- The first idle-prompt span starting strictly after position `b`
(the extractor's search loop). -/
def firstIdleAfter (profile clean : List Char) (b : Nat) : Option (Nat × Nat) :=
  (idleFindIter profile clean).find? (fun q => b < q.1)

/-- `clean_output[b:e]`. -/
def rawSlice (clean : List Char) (b e : Nat) : List Char :=
  (clean.drop b).take (e - b)

/-- The final cleanup the extractor applies to the already-trimmed slice:
strip ANSI codes, strip residual escape-sequence fragments, strip control
characters, trim again. -/
def cleanupMsg (l : List Char) : List Char :=
  trimWs (stripCtrl (stripEscSeq (stripAnsi l)))

/-- `KiroCliProvider.extract_last_message_from_script` (the Python local
`clean_output` is written out in place). -/
def extract_last_message_from_script (profile script : List Char) : ExtractResult :=
  match lastGreen (stripAnsi script) with
  | none => ExtractResult.err ExtractErr.NoResponseFound
  | some m =>
      if (idleFindIter profile (stripAnsi script)).isEmpty then
        ExtractResult.err ExtractErr.IncompleteResponse
      else
        match firstIdleAfter profile (stripAnsi script) m.2 with
        | none => ExtractResult.err ExtractErr.IncompleteResponse
        | some q =>
            if (trimWs (rawSlice (stripAnsi script) m.2 q.1)).isEmpty then
              ExtractResult.err ExtractErr.EmptyResponse
            else ExtractResult.ok (cleanupMsg (trimWs (rawSlice (stripAnsi script) m.2 q.1)))

/-! ## `TmuxClient.send_keys`

`send_keys` stages the payload in a uniquely named tmux buffer:

* `buf_name = f"cao_{uuid.uuid4().hex[:8]}"` — the fresh random hex
  string drawn by `uuid.uuid4().hex` is an oracle input `uuidHex`;
* inside `try`: `load-buffer` (stdin = `keys.encode()`, delivered
  verbatim), `paste-buffer -p`, `send-keys ... Enter`, each via
  `subprocess.run(..., check=True)` — whether each external command
  succeeds is an oracle flag, and with `check=True` a failing command
  raises after the call was issued, skipping the rest of the `try` body;
* `except`: logs and re-raises;
* `finally`: `delete-buffer` with `check=False`, so its own failure is
  swallowed and it runs on every exit path, before any exception
  propagates.

The model returns the exact sequence of tmux commands issued and the
call outcome. -/

inductive TmuxCall
  | loadBuffer (buf payload : List Char)
  | pasteBuffer (buf target : List Char)
  | sendEnterKey (target : List Char)
  | deleteBuffer (buf : List Char)
deriving DecidableEq

inductive SendOutcome
  | ok
  | injectionFailed
deriving DecidableEq

/-- `f"cao_{uuid.uuid4().hex[:8]}"`. -/
def bufName (uuidHex : List Char) : List Char := "cao_".data ++ uuidHex.take 8

/-- `f"{session_name}:{window_name}"`. -/
def targetOf (session window : List Char) : List Char := session ++ ':' :: window

/-- `TmuxClient.send_keys`: the issued tmux commands, in order, and the
outcome.  `loadOk/pasteOk/enterOk` are the oracle results of the three
`check=True` subprocess calls; `deleteOk` is the result of the
`check=False` cleanup call, which the code ignores. -/
def send_keys (session window keys uuidHex : List Char)
    (loadOk pasteOk enterOk deleteOk : Bool) : List TmuxCall × SendOutcome :=
  let buf := bufName uuidHex
  let tgt := targetOf session window
  let tryCalls :=
    TmuxCall.loadBuffer buf keys ::
      (if loadOk then
        TmuxCall.pasteBuffer buf tgt ::
          (if pasteOk then [TmuxCall.sendEnterKey tgt] else [])
       else [])
  let _ := deleteOk
  ⟨tryCalls ++ [TmuxCall.deleteBuffer buf],
   if loadOk && pasteOk && enterOk then SendOutcome.ok else SendOutcome.injectionFailed⟩

/-- Recogniser for `load-buffer` calls. -/
def isLoadCall : TmuxCall → Bool
  | TmuxCall.loadBuffer _ _ => true
  | _ => false

/-! ## Soft-failure operations of `TmuxClient`

Each operation wraps libtmux lookups in `try/except` and returns a
default on any failure.  The libtmux side is an oracle: a lookup either
raises, finds nothing, or yields a model value. -/

inductive Lookup (α : Type)
  | raises
  | notFound
  | found (a : α)

inductive SessStatus
  | active
  | detached
deriving DecidableEq

/-- The libtmux view of one session: `session.name` (possibly `None`)
and the number of attached clients, plus its windows as
(name, `str(index)`) pairs. -/
structure SessionModel where
  name : Option (List Char)
  attachedCount : Nat
  windows : List (Option (List Char) × List Char)

/-- One entry of the `list_sessions` result: `(id, name, status)`. -/
def sessionInfoOf (s : SessionModel) : List Char × List Char × SessStatus :=
  ⟨s.name.getD [], s.name.getD [],
   if 0 < s.attachedCount then SessStatus.active else SessStatus.detached⟩

/-- `TmuxClient.list_sessions`: the server enumeration either raises
(caught, giving `[]`) or yields the session models. -/
def list_sessions : Except Unit (List SessionModel) → List (List Char × List Char × SessStatus)
  | Except.error _ => []
  | Except.ok ss => ss.map sessionInfoOf

/-- One entry of the `get_session_windows` result: `(name, index)`. -/
def windowInfoOf (w : Option (List Char) × List Char) : List Char × List Char :=
  ⟨w.1.getD [], w.2⟩

/-- `TmuxClient.get_session_windows`. -/
def get_session_windows : Lookup SessionModel → List (List Char × List Char)
  | Lookup.raises => []
  | Lookup.notFound => []
  | Lookup.found s => s.windows.map windowInfoOf

/-- `TmuxClient.kill_session` (`killOk` = whether `session.kill()`
itself succeeds; its failure is caught, giving `False`). -/
def kill_session : Lookup SessionModel → Bool → Bool
  | Lookup.raises, _ => false
  | Lookup.notFound, _ => false
  | Lookup.found _, killOk => killOk

/-- `TmuxClient.session_exists`. -/
def session_exists : Lookup SessionModel → Bool
  | Lookup.raises => false
  | Lookup.notFound => false
  | Lookup.found _ => true

/-- `TmuxClient.get_pane_working_directory`: session lookup, then window
lookup, then the active pane (`none` when missing), then the
`display-message` command result (its stdout lines, or a raise). -/
def get_pane_working_directory :
    Lookup SessionModel → Lookup Unit → Option (Except Unit (List (List Char))) →
    Option (List Char)
  | Lookup.raises, _, _ => none
  | Lookup.notFound, _, _ => none
  | Lookup.found _, Lookup.raises, _ => none
  | Lookup.found _, Lookup.notFound, _ => none
  | Lookup.found _, Lookup.found _, none => none
  | Lookup.found _, Lookup.found _, some (Except.error _) => none
  | Lookup.found _, Lookup.found _, some (Except.ok []) => none
  | Lookup.found _, Lookup.found _, some (Except.ok (l :: _)) => some (trimWs l)

/-! ## Concrete captures used by the per-claim theorems -/

/-- The agent profile used by the repository unit tests. -/
def devProfile : List Char := "developer".data

/-! ## Helper lemmas about the matchers -/

/-- Every span produced by the finditer scan is a match of the pattern:
`f start = some n` and `end = start + n`. -/
theorem findIterAux_spec (f : Nat → Option Nat) (stop : Nat) :
    ∀ (fuel p : Nat) (m : Nat × Nat), m ∈ findIterAux f stop fuel p →
      ∃ n, f m.1 = some n ∧ m.2 = m.1 + n := by
  intro fuel
  induction fuel with
  | zero =>
      intro p m h
      simp [findIterAux] at h
  | succ k ih =>
      intro p m h
      rw [findIterAux] at h
      by_cases hs : stop < p
      · simp [hs] at h
      · rw [if_neg hs] at h
        cases hf : f p with
        | none =>
            rw [hf] at h
            exact ih _ m h
        | some n =>
            rw [hf] at h
            rcases List.mem_cons.mp h with h | h
            · refine ⟨n, ?_, ?_⟩
              · rw [h]; exact hf
              · rw [h]
            · exact ih _ m h

/-- Specialisation to `greenFindIter`. -/
theorem greenFindIter_spec (s : List Char) (m : Nat × Nat)
    (h : m ∈ greenFindIter s) : ∃ n, greenLenAt s m.1 = some n ∧ m.2 = m.1 + n :=
  findIterAux_spec (greenLenAt s) s.length (s.length + 2) 0 m h

/-- Specialisation to `idleFindIter`. -/
theorem idleFindIter_spec (profile s : List Char) (m : Nat × Nat)
    (h : m ∈ idleFindIter profile s) :
    ∃ n, idleLenAt profile s m.1 = some n ∧ m.2 = m.1 + n :=
  findIterAux_spec (idleLenAt profile s) s.length (s.length + 2) 0 m h

/-- The character right after a maximal `takeWhile` run does not satisfy
the predicate. -/
theorem head_drop_takeWhile (q : Char → Bool) :
    ∀ (t : List Char) (c : Char),
      (t.drop (t.takeWhile q).length).head? = some c → q c = false := by
  intro t
  induction t with
  | nil => intro c h; simp at h
  | cons a t ih =>
      intro c h
      by_cases hq : q a
      · rw [List.takeWhile_cons_of_pos hq] at h
        simpa using ih c (by simpa using h)
      · rw [List.takeWhile_cons_of_neg hq] at h
        simp at h
        rw [← h]
        exact Bool.of_not_eq_true hq

/-- A match of the response-start marker ends right before a
non-whitespace character (the `\s*` tail is maximal). -/
theorem greenLenAt_end_not_ws (s : List Char) (p n : Nat) (c : Char)
    (hn : greenLenAt s p = some n) (hc : charAt s (p + n) = some c) :
    isWsChar c = false := by
  unfold greenLenAt at hn
  by_cases hg : (p = 0 ∨ charAt s (p - 1) = some '\n') ∧ charAt s p = some '>'
  · rw [if_pos hg] at hn
    have hn' : n = 1 + wsRunFrom s (p + 1) := by
      injection hn with hn'
      exact hn'.symm
    subst hn'
    unfold charAt at hc
    rw [show p + (1 + wsRunFrom s (p + 1)) = (p + 1) + wsRunFrom s (p + 1) by omega] at hc
    rw [← List.drop_drop] at hc
    unfold wsRunFrom at hc
    exact head_drop_takeWhile isWsChar (s.drop (p + 1)) c hc
  · rw [if_neg hg] at hn
    exact absurd hn (by simp)

/-- The idle-prompt pattern only matches at in-range positions (it needs
the literal `[` at its start). -/
theorem idleLenAt_lt_length (profile s : List Char) (p n : Nat)
    (h : idleLenAt profile s p = some n) : p < s.length := by
  unfold idleLenAt at h
  by_cases hpre : (idleLit profile).isPrefixOf (s.drop p)
  · by_contra hlen
    have hnil : s.drop p = [] := List.drop_eq_nil_iff.mpr (by omega)
    rw [hnil] at hpre
    have : idleLit profile = [] := by
      simpa using (List.isPrefixOf_iff_prefix.mp hpre)
    simp [idleLit] at this
  · rw [if_neg hpre] at h
    exact absurd h (by simp)

/-- `dropWhile` cannot erase an element that fails the predicate. -/
theorem dropWhile_ne_nil_of_mem (q : Char → Bool) :
    ∀ (l : List Char) (x : Char), x ∈ l → q x = false → l.dropWhile q ≠ [] := by
  intro l
  induction l with
  | nil => intro x hx; simp at hx
  | cons a t ih =>
      intro x hx hqx
      by_cases hqa : q a
      · rw [List.dropWhile_cons_of_pos hqa]
        rcases List.mem_cons.mp hx with h | h
        · rw [h] at hqx
          rw [hqx] at hqa
          exact absurd hqa (by simp)
        · exact ih x h hqx
      · rw [List.dropWhile_cons_of_neg hqa]
        simp

/-- Trimming keeps a list whose head is not whitespace non-empty. -/
theorem trimWs_ne_nil (l : List Char) (c : Char)
    (hc : l.head? = some c) (hw : isWsChar c = false) : trimWs l ≠ [] := by
  cases l with
  | nil => simp at hc
  | cons a t =>
      have hac : a = c := by simpa using hc
      subst hac
      unfold trimWs
      rw [List.dropWhile_cons_of_neg (by simp [hw])]
      intro hnil
      rw [List.reverse_eq_nil_iff] at hnil
      have hmem : a ∈ (a :: t).reverse := by simp
      exact dropWhile_ne_nil_of_mem isWsChar ((a :: t).reverse) a hmem hw hnil

/-- `take` of a positive count preserves the head. -/
theorem head?_take_pos (l : List Char) (k : Nat) (hk : 0 < k) :
    (l.take k).head? = l.head? := by
  cases l with
  | nil => simp
  | cons a t =>
      cases k with
      | zero => omega
      | succ k => simp

/-! ## Per-claim theorems -/

/-- Capture exhibiting the C1 failure: the inter-marker content is a
residual escape fragment, so the final cleanup erases it after the
emptiness check already passed. -/
def c1cap : List Char := "> [0m\n[developer]> ".data

/-- C1: the synchronization guarantee fails on the code.  On `c1cap` the
classifier returns `COMPLETED`, the extractor raises no error, but the
returned text is empty: `extract_last_message_from_script` checks
emptiness before stripping residual escape fragments, while the
specification (4.5 steps 5–6) and the raise message demand a non-empty
result. -/
theorem c1_completed_but_empty :
    get_status devProfile c1cap = TerminalStatus.COMPLETED ∧
      extract_last_message_from_script devProfile c1cap = ExtractResult.ok [] := by
  constructor
  · decide
  · decide

/-- The capture of the repository unit test
`test_permission_prompt_no_match_stale_history`: a stale permission
question, an answered round, intervening output, and a fresh idle
prompt. -/
def staleCap : List Char :=
  "Allow this action? [y/n/t]:\n\n[developer] 29% > y\nsome output\n[developer] 29% > ".data

/-- C2: the stale-permission requirement fails on the code.  Under
`DOTALL` the `.*` parts of the permission pattern span the intervening
output and the `\]:\s*` of the stale question is directly followed by
the first idle prompt, so the classifier returns `WAITING_USER_ANSWER`
on the very capture whose own unit test asserts the pattern must not
match. -/
theorem c2_stale_prompt_matches :
    get_status devProfile staleCap = TerminalStatus.WAITING_USER_ANSWER := by
  decide

/-- C3: the tie-break rule of the classifier.  For a capture whose
ANSI-stripped text contains the idle prompt, no error phrase and no
permission match: no response-start marker gives `IDLE`; with markers,
an idle-prompt occurrence starting strictly after the end of the last
marker gives `COMPLETED`, otherwise `PROCESSING`. -/
theorem c3_tiebreak (profile out : List Char)
    (h1 : (idleFindIter profile (stripAnsi out)).isEmpty = false)
    (h2 : hasErrorPhrase (stripAnsi out) = false)
    (h3 : permSearch profile (stripAnsi out) = false) :
    ((greenFindIter (stripAnsi out)).getLast? = none →
        get_status profile out = TerminalStatus.IDLE) ∧
    (∀ m : Nat × Nat, (greenFindIter (stripAnsi out)).getLast? = some m →
        ((idleFindIter profile (stripAnsi out)).any (fun q => m.2 < q.1) = true →
            get_status profile out = TerminalStatus.COMPLETED) ∧
        ((idleFindIter profile (stripAnsi out)).any (fun q => m.2 < q.1) = false →
            get_status profile out = TerminalStatus.PROCESSING)) := by
  have hout : out.isEmpty = false := by
    cases out with
    | nil => simp [stripAnsi, stripAnsiAux, idleFindIter, findIter, findIterAux, idleLenAt,
        idleLit, List.isPrefixOf] at h1
    | cons a t => rfl
  unfold get_status
  rw [hout]
  simp only [Bool.false_eq_true, if_false, h1, h2, h3]
  constructor
  · intro hg
    rw [hg]
  · intro m hg
    rw [hg]
    constructor
    · intro ha
      simp only [ha, if_true]
    · intro ha
      simp only [ha, Bool.false_eq_true, if_false]

/-- Concrete capture for the C3 witness: one response round. -/
def c3cap : List Char := "> Hi\n[developer]> ".data

/-- Witness for C3 at `c3cap`: marker at `(0, 2)`, idle prompt starting
at 5, hence `COMPLETED`. -/
theorem c3_tiebreak_witness :
    get_status devProfile c3cap = TerminalStatus.COMPLETED := by
  have h := c3_tiebreak devProfile c3cap (by decide) (by decide) (by decide)
  exact ((h.2 (0, 2) (by decide)).1 (by decide))

/-- C4: the `ERROR` precedence of the classifier: the empty capture is
`ERROR`; a non-empty capture without the idle prompt is `PROCESSING`
even if it contains the error phrase; idle prompt plus error phrase is
`ERROR`. -/
theorem c4_error_precedence (profile out : List Char) :
    (out = [] → get_status profile out = TerminalStatus.ERROR) ∧
    (out ≠ [] → (idleFindIter profile (stripAnsi out)).isEmpty = true →
        get_status profile out = TerminalStatus.PROCESSING) ∧
    ((idleFindIter profile (stripAnsi out)).isEmpty = false →
        hasErrorPhrase (stripAnsi out) = true →
        get_status profile out = TerminalStatus.ERROR) := by
  refine ⟨?_, ?_, ?_⟩
  · intro h
    rw [h]
    rfl
  · intro hne hidle
    have hout : out.isEmpty = false := by
      cases out with
      | nil => exact absurd rfl hne
      | cons a t => rfl
    unfold get_status
    rw [hout]
    simp only [Bool.false_eq_true, if_false, hidle, if_true]
  · intro hidle herr
    have hout : out.isEmpty = false := by
      cases out with
      | nil => simp [stripAnsi, stripAnsiAux, idleFindIter, findIter, findIterAux, idleLenAt,
          idleLit, List.isPrefixOf] at hidle
      | cons a t => rfl
    unfold get_status
    rw [hout]
    simp only [Bool.false_eq_true, if_false, hidle, herr, if_true]

/-- Capture with the error phrase but no idle prompt. -/
def c4capA : List Char := "Kiro is having trouble responding right now".data

/-- Capture with the error phrase and a trailing idle prompt. -/
def c4capB : List Char :=
  "Kiro is having trouble responding right now\n[developer]> ".data

/-- Witness for C4: the empty capture is `ERROR`; the error phrase alone
is `PROCESSING`; the error phrase with a trailing idle prompt is
`ERROR`. -/
theorem c4_error_precedence_witness :
    get_status devProfile [] = TerminalStatus.ERROR ∧
      get_status devProfile c4capA = TerminalStatus.PROCESSING ∧
      get_status devProfile c4capB = TerminalStatus.ERROR := by
  refine ⟨(c4_error_precedence devProfile []).1 rfl, ?_, ?_⟩
  · exact (c4_error_precedence devProfile c4capA).2.1 (by decide) (by decide)
  · exact (c4_error_precedence devProfile c4capB).2.2 (by decide) (by decide)

/-! ## C5: the extractor reference behaviour -/

/-- The C5 claim, stated in its own words, for comparison: the extractor
returns the whitespace-trimmed text strictly between the end of the last
response-start marker and the start of the first idle-prompt occurrence
after it (without the residual cleanup the code performs). -/
def extractSpecC5 (profile script : List Char) : ExtractResult :=
  let clean := stripAnsi script
  match lastGreen clean with
  | none => ExtractResult.err ExtractErr.NoResponseFound
  | some m =>
      match firstIdleAfter profile clean m.2 with
      | none => ExtractResult.err ExtractErr.IncompleteResponse
      | some q => ExtractResult.ok (trimWs (rawSlice clean m.2 q.1))

/-- Capture for the C5 counterexample: a bell character inside the
response round. -/
def c5cap : List Char := "> a\x07b\n[developer]> ".data

/-- C5 counterexample: on `c5cap` the trimmed inter-marker text is
`"a\x07b"`, but the extractor returns `"ab"` — the claim omits the final
stripping of residual escape fragments and control characters. -/
theorem c5_counterexample :
    extractSpecC5 devProfile c5cap = ExtractResult.ok ('a' :: '\x07' :: 'b' :: []) ∧
      extract_last_message_from_script devProfile c5cap =
        ExtractResult.ok ('a' :: 'b' :: []) ∧
      extract_last_message_from_script devProfile c5cap ≠ extractSpecC5 devProfile c5cap := by
  refine ⟨by decide, by decide, by decide⟩

/-- From a successful idle search the occurrence list is non-empty. -/
theorem idle_nonempty_of_firstIdleAfter (profile clean : List Char) (b : Nat)
    (q : Nat × Nat) (hq : firstIdleAfter profile clean b = some q) :
    (idleFindIter profile clean).isEmpty = false := by
  have hmem : q ∈ idleFindIter profile clean :=
    List.mem_of_find?_eq_some (by simpa [firstIdleAfter] using hq)
  exact List.isEmpty_eq_false.mpr (List.ne_nil_of_mem hmem)

/-- The trimmed slice between the end of the last marker and the first
idle prompt after it is never empty: the marker match consumed the
maximal whitespace run, so the slice starts with a non-whitespace
character. -/
theorem trimmed_slice_ne_nil (profile clean : List Char) (m q : Nat × Nat)
    (hg : lastGreen clean = some m)
    (hq : firstIdleAfter profile clean m.2 = some q) :
    trimWs (rawSlice clean m.2 q.1) ≠ [] := by
  have hqmem : q ∈ idleFindIter profile clean :=
    List.mem_of_find?_eq_some (by simpa [firstIdleAfter] using hq)
  have hlt : m.2 < q.1 := by
    have := List.find?_some (by simpa [firstIdleAfter] using hq)
    exact of_decide_eq_true this
  obtain ⟨nI, hnI, -⟩ := idleFindIter_spec profile clean q hqmem
  have hqlen : q.1 < clean.length := idleLenAt_lt_length profile clean q.1 nI hnI
  have hmmem : m ∈ greenFindIter clean :=
    List.mem_of_getLast?_eq_some (by simpa [lastGreen] using hg)
  obtain ⟨nG, hnG, hend⟩ := greenFindIter_spec clean m hmmem
  have hmlen : m.2 < clean.length := lt_trans hlt hqlen
  obtain ⟨c, hc⟩ : ∃ c, (clean.drop m.2).head? = some c := by
    cases hdrop : clean.drop m.2 with
    | nil =>
        rw [List.drop_eq_nil_iff] at hdrop
        omega
    | cons a t => exact ⟨a, rfl⟩
  have hcw : isWsChar c = false := by
    refine greenLenAt_end_not_ws clean m.1 nG c hnG ?_
    rw [← hend]
    exact hc
  have hslice : (rawSlice clean m.2 q.1).head? = some c := by
    unfold rawSlice
    rw [head?_take_pos (clean.drop m.2) (q.1 - m.2) (by omega)]
    exact hc
  exact trimWs_ne_nil (rawSlice clean m.2 q.1) c hslice hcw

/-- C5 (amended): no marker gives `NoResponseFound`; markers with no
idle prompt strictly after the end of the last one give
`IncompleteResponse`; otherwise the extractor returns the
whitespace-trimmed text strictly between the end of the last marker and
the start of the first idle prompt after it, further stripped of
residual ANSI codes, escape-sequence fragments and control characters
and re-trimmed. -/
theorem c5_extract_behavior (profile s : List Char) :
    (lastGreen (stripAnsi s) = none →
        extract_last_message_from_script profile s =
          ExtractResult.err ExtractErr.NoResponseFound) ∧
    (∀ m : Nat × Nat, lastGreen (stripAnsi s) = some m →
        firstIdleAfter profile (stripAnsi s) m.2 = none →
        extract_last_message_from_script profile s =
          ExtractResult.err ExtractErr.IncompleteResponse) ∧
    (∀ m q : Nat × Nat, lastGreen (stripAnsi s) = some m →
        firstIdleAfter profile (stripAnsi s) m.2 = some q →
        extract_last_message_from_script profile s =
          ExtractResult.ok (cleanupMsg (trimWs (rawSlice (stripAnsi s) m.2 q.1)))) := by
  refine ⟨?_, ?_, ?_⟩
  · intro hg
    unfold extract_last_message_from_script
    rw [hg]
  · intro m hg hq
    unfold extract_last_message_from_script
    rw [hg]
    cases hie : (idleFindIter profile (stripAnsi s)).isEmpty with
    | true => simp only [if_true]
    | false =>
        simp only [Bool.false_eq_true, if_false]
        rw [hq]
  · intro m q hg hq
    have hie := idle_nonempty_of_firstIdleAfter profile (stripAnsi s) m.2 q hq
    have hne := trimmed_slice_ne_nil profile (stripAnsi s) m q hg hq
    unfold extract_last_message_from_script
    rw [hg]
    simp only [hie, Bool.false_eq_true, if_false]
    rw [hq]
    simp only [List.isEmpty_eq_false.mpr hne, Bool.false_eq_true, if_false]

/-- Capture with two response rounds for the C5 witness. -/
def c5wcap : List Char := "> first\n[developer]> \n> second\n[developer]> ".data

/-- Witness for C5 at `c5wcap`: two rounds; the last marker spans
`(22, 24)`, the first idle prompt after it starts at 31, and only the
last round is returned. -/
theorem c5_extract_behavior_witness :
    extract_last_message_from_script devProfile c5wcap =
      ExtractResult.ok "second".data := by
  have h := (c5_extract_behavior devProfile c5wcap).2.2 (22, 24) (31, 44)
    (by decide) (by decide)
  exact h.trans (by decide)

/-! ## C10: extraction is independent of error and permission state -/

/-- C10: extraction depends only on the marker and idle-prompt
positions.  Whenever the last marker exists, an idle prompt starts
strictly after it, and the trimmed content between them is non-empty,
the extractor succeeds and returns that (cleaned) content — with no
hypothesis about the error-indicator list or the permission pattern,
which the extractor never consults. -/
theorem c10_extraction_independent (profile s : List Char) (m q : Nat × Nat)
    (hg : lastGreen (stripAnsi s) = some m)
    (hq : firstIdleAfter profile (stripAnsi s) m.2 = some q)
    (hne : trimWs (rawSlice (stripAnsi s) m.2 q.1) ≠ []) :
    extract_last_message_from_script profile s =
      ExtractResult.ok (cleanupMsg (trimWs (rawSlice (stripAnsi s) m.2 q.1))) := by
  have hie := idle_nonempty_of_firstIdleAfter profile (stripAnsi s) m.2 q hq
  unfold extract_last_message_from_script
  rw [hg]
  simp only [hie, Bool.false_eq_true, if_false]
  rw [hq]
  simp only [List.isEmpty_eq_false.mpr hne, Bool.false_eq_true, if_false]

/-- Capture containing the error phrase inside the response round. -/
def c10cap : List Char :=
  "> Working\nKiro is having trouble responding right now\n[developer]> ".data

/-- Capture containing a pending permission question inside the response
round. -/
def c10capB : List Char :=
  "> Reply\nAllow this action? [y/n/t]: \n[developer]> ".data

/-- Witness for C10: on `c10cap` the classifier returns `ERROR` and on
`c10capB` it returns `WAITING_USER_ANSWER`, yet the extractor succeeds
on both. -/
theorem c10_extraction_independent_witness :
    get_status devProfile c10cap = TerminalStatus.ERROR ∧
      extract_last_message_from_script devProfile c10cap =
        ExtractResult.ok "WorkingKiro is having trouble responding right now".data ∧
      get_status devProfile c10capB = TerminalStatus.WAITING_USER_ANSWER ∧
      extract_last_message_from_script devProfile c10capB =
        ExtractResult.ok "ReplyAllow this action? /n/t]:".data := by
  refine ⟨by decide, ?_, by decide, ?_⟩
  · have h := c10_extraction_independent devProfile c10cap (0, 2) (54, 67)
      (by decide) (by decide) (by decide)
    exact h.trans (by decide)
  · have h := c10_extraction_independent devProfile c10capB (0, 2) (37, 50)
      (by decide) (by decide) (by decide)
    exact h.trans (by decide)

/-! ## C6: the send-keys sequence -/

/-- C6: for non-empty text, a successful call issues exactly the four
tmux commands — load, paste, Enter, delete — in that order; on every
exit path the buffer deletion is issued exactly once and is the last
command (so a failure propagates only after it ran); the call fails
exactly when one of the three `check=True` commands failed; and the
result of the `check=False` deletion is ignored. -/
theorem c6_send_keys_sequence (session window keys uuidHex : List Char)
    (lOk pOk eOk dOk : Bool) (hk : keys ≠ []) :
    ((lOk && pOk && eOk) = true →
        send_keys session window keys uuidHex lOk pOk eOk dOk =
          ⟨[TmuxCall.loadBuffer (bufName uuidHex) keys,
            TmuxCall.pasteBuffer (bufName uuidHex) (targetOf session window),
            TmuxCall.sendEnterKey (targetOf session window),
            TmuxCall.deleteBuffer (bufName uuidHex)], SendOutcome.ok⟩) ∧
    (send_keys session window keys uuidHex lOk pOk eOk dOk).1.getLast? =
        some (TmuxCall.deleteBuffer (bufName uuidHex)) ∧
    (send_keys session window keys uuidHex lOk pOk eOk dOk).1.count
        (TmuxCall.deleteBuffer (bufName uuidHex)) = 1 ∧
    ((send_keys session window keys uuidHex lOk pOk eOk dOk).2 =
        SendOutcome.injectionFailed ↔ (lOk && pOk && eOk) = false) ∧
    send_keys session window keys uuidHex lOk pOk eOk dOk =
        send_keys session window keys uuidHex lOk pOk eOk true := by
  have _ := hk
  cases lOk <;> cases pOk <;> cases eOk <;>
    simp [send_keys, List.count_cons, List.count_singleton]

/-- A fixed sample nonce for the send-keys witnesses. -/
def uuidSample : List Char := "0123456789abcdef0123456789abcdef".data

/-- Witness for C6 at concrete arguments: the all-success trace, and a
failed paste still ends in the deletion and reports failure. -/
theorem c6_send_keys_sequence_witness :
    send_keys "s".data "w".data "hi".data uuidSample true true true true =
      ⟨[TmuxCall.loadBuffer (bufName uuidSample) "hi".data,
        TmuxCall.pasteBuffer (bufName uuidSample) (targetOf "s".data "w".data),
        TmuxCall.sendEnterKey (targetOf "s".data "w".data),
        TmuxCall.deleteBuffer (bufName uuidSample)], SendOutcome.ok⟩ ∧
    (send_keys "s".data "w".data "hi".data uuidSample true false true false).1.getLast? =
      some (TmuxCall.deleteBuffer (bufName uuidSample)) ∧
    (send_keys "s".data "w".data "hi".data uuidSample true false true false).2 =
      SendOutcome.injectionFailed := by
  refine ⟨(c6_send_keys_sequence "s".data "w".data "hi".data uuidSample
      true true true true (by decide)).1 rfl, ?_, ?_⟩
  · exact (c6_send_keys_sequence "s".data "w".data "hi".data uuidSample
      true false true false (by decide)).2.1
  · exact ((c6_send_keys_sequence "s".data "w".data "hi".data uuidSample
      true false true false (by decide)).2.2.2.1).mpr (by decide)

/-! ## C7: payload fidelity -/

/-- C7: on every oracle outcome, the trace of a `send_keys` call
contains exactly one `load-buffer` command, and its payload is the text
verbatim — no transformation and no chunking, for any length and any
embedded characters (the UTF-8 encoding of `keys.encode()` is
injective, so fidelity is stated on the characters). -/
theorem c7_payload_fidelity (session window keys uuidHex : List Char)
    (lOk pOk eOk dOk : Bool) :
    (send_keys session window keys uuidHex lOk pOk eOk dOk).1.filter isLoadCall =
      [TmuxCall.loadBuffer (bufName uuidHex) keys] := by
  cases lOk <;> cases pOk <;> simp [send_keys, isLoadCall]

/-! ## C8: staging-buffer identifiers of two consecutive calls -/

/-- C8 (amended): the staging-buffer identifiers of two calls are equal
iff the first eight hex characters of their fresh UUID values agree —
distinctness of the full UUIDs alone does not guarantee distinct buffer
names, because the name truncates the hex form to eight characters. -/
theorem c8_bufname_iff (u1 u2 : List Char) :
    bufName u1 = bufName u2 ↔ u1.take 8 = u2.take 8 := by
  unfold bufName
  exact ⟨fun h => List.append_cancel_left h, fun h => by rw [h]⟩

/-- A second sample nonce agreeing with `uuidSample` on the first eight
hex characters only. -/
def uuidSampleB : List Char := "01234567ffffffffffffffffffffffff".data

/-- C8 counterexample: two distinct 32-character UUID hex values whose
staging-buffer names coincide. -/
theorem c8_counterexample :
    uuidSample ≠ uuidSampleB ∧ bufName uuidSample = bufName uuidSampleB := by
  refine ⟨by decide, by decide⟩

/-! ## C9: soft-failure operations -/

/-- C9: the enumeration and boolean operations absorb every failure of
the underlying multiplexer into their soft defaults: `list_sessions`
returns `[]` when the server enumeration raises and the mapped entries
otherwise; `get_session_windows` returns `[]` on a raise or a missing
session; `kill_session` returns `false` on a raise or a missing session
and the kill result otherwise; `session_exists` returns a Boolean on
every oracle outcome; `get_pane_working_directory` returns `none`
whenever the session, window or pane is missing, the query raises, or
its output is empty, and the trimmed first output line otherwise. -/
theorem c9_soft_failures :
    list_sessions (Except.error ()) = [] ∧
    (∀ ss, list_sessions (Except.ok ss) = ss.map sessionInfoOf) ∧
    get_session_windows Lookup.raises = [] ∧
    get_session_windows Lookup.notFound = [] ∧
    (∀ s, get_session_windows (Lookup.found s) = s.windows.map windowInfoOf) ∧
    (∀ k, kill_session Lookup.raises k = false) ∧
    (∀ k, kill_session Lookup.notFound k = false) ∧
    (∀ s k, kill_session (Lookup.found s) k = k) ∧
    session_exists Lookup.raises = false ∧
    session_exists Lookup.notFound = false ∧
    (∀ s, session_exists (Lookup.found s) = true) ∧
    (∀ w p, get_pane_working_directory Lookup.raises w p = none) ∧
    (∀ w p, get_pane_working_directory Lookup.notFound w p = none) ∧
    (∀ s p, get_pane_working_directory (Lookup.found s) Lookup.raises p = none) ∧
    (∀ s p, get_pane_working_directory (Lookup.found s) Lookup.notFound p = none) ∧
    (∀ s u, get_pane_working_directory (Lookup.found s) (Lookup.found u) none = none) ∧
    (∀ s u, get_pane_working_directory (Lookup.found s) (Lookup.found u)
        (some (Except.error ())) = none) ∧
    (∀ s u, get_pane_working_directory (Lookup.found s) (Lookup.found u)
        (some (Except.ok [])) = none) ∧
    (∀ s u l t, get_pane_working_directory (Lookup.found s) (Lookup.found u)
        (some (Except.ok (l :: t))) = some (trimWs l)) := by
  refine ⟨rfl, fun ss => rfl, rfl, rfl, fun s => rfl, fun k => rfl, fun k => rfl,
    fun s k => rfl, rfl, rfl, fun s => rfl, fun w p => rfl, fun w p => rfl,
    fun s p => rfl, fun s p => rfl, fun s u => rfl, fun s u => rfl, fun s u => rfl,
    fun s u l t => rfl⟩
